import Mathlib

/-!
Verification of the convert-video backend (NestJS + BullMQ + FFmpeg).

Shallow embedding of the video-conversion pipeline:
  * `apps/backend/src/videos/videos.service.ts`   (record store operations)
  * `apps/backend/src/videos/videos.controller.ts` (upload / download / delete routes)
  * the `VideoProcessor` Bull consumer (`handleVideoProcessing`,
    `convertVideoToFormat`)
  * the `VideosGateway` notification calls (modelled as an event trace).

JavaScript numbers carry no arithmetic here, so they are modelled as `Rat`
(durations) and `Int` (pixel dimensions, byte sizes); JS `undefined` vs
`null` on a `Partial<VideoDocument>` field is modelled as
`Option (Option α)`: `none` = field absent, `some none` = field present
with value `null`, `some (some x)` = field present with value `x`.
External effects (ffmpeg / ffprobe processes, the filesystem, `Date.now()`,
`path.resolve`, `parseFloat`) are oracles passed in as parameters.
-/

/-- Lifecycle states of a video record (`VideoStatus` in
`schemas/video.schema.ts`). -/
inductive VideoStatus
  | uploaded
  | processing
  | completed
  | failed
deriving DecidableEq, Repr

/-- One entry of `converted_formats`: a `{ format, file_path }` pair. -/
structure ConvertedFormat where
  format : String
  file_path : String
deriving DecidableEq, Repr

/-- The persisted video record (`Video` in `schemas/video.schema.ts`).
`id` models the Mongo `_id`. -/
structure Video where
  id : String
  user_email : String
  filename : String
  status : VideoStatus
  raw_file_path : String
  output_file_path : Option String := none
  duration : Option Rat := none
  resolution : Option String := none
  size : Option Int := none
  output_format : Option String := none
  error_message : Option String := none
  converted_formats : List ConvertedFormat := []
deriving DecidableEq, Repr

/-- The `data?: Partial<VideoDocument>` argument of
`VideosService.updateVideoStatus`.  Outer `Option` = field absent
(`undefined`), inner `Option` = field set to `null`. -/
structure VideoUpdate where
  output_file_path : Option (Option String) := none
  duration : Option (Option Rat) := none
  resolution : Option (Option String) := none
  size : Option (Option Int) := none
  output_format : Option (Option String) := none
  error_message : Option (Option String) := none
deriving DecidableEq, Repr

/-- `data?.field` for an optional update object: collapses an absent
object and an absent field to `none`, as JS optional chaining does. -/
def jsGet (data : Option VideoUpdate) (f : VideoUpdate → Option (Option α)) :
    Option (Option α) :=
  match data with
  | none => none
  | some d => f d

/-- One field of the merge performed by `updateVideoStatus`:
`if (data?.field) updateData.field = data.field;` followed by the Mongo
`$set`.  `isTruthy` is the JS truthiness test for the field's value type
(`≠ 0` for numbers, `≠ ""` for strings); a falsy or absent or `null`
provided value leaves the stored value unchanged. -/
def applyField (isTruthy : α → Bool) (old : Option α)
    (upd : Option (Option α)) : Option α :=
  match upd with
  | some (some x) => if isTruthy x then some x else old
  | _ => old

/-- JS truthiness of a number (`Rat` model): nonzero. -/
def ratTruthy (q : Rat) : Bool := q != 0

/-- JS truthiness of a number (`Int` model): nonzero. -/
def intTruthy (n : Int) : Bool := n != 0

/-- JS truthiness of a string: nonempty. -/
def strTruthy (s : String) : Bool := s != ""

/-- The pure merge at the heart of `VideosService.updateVideoStatus`
(lines 186-207): build `updateData = { status }`, copy in each provided
truthy field, and `$set` it on the existing document. -/
def mergeUpdate (v : Video) (status : VideoStatus)
    (data : Option VideoUpdate) : Video :=
  { v with
    status := status
    output_file_path :=
      applyField strTruthy v.output_file_path (jsGet data VideoUpdate.output_file_path)
    duration :=
      applyField ratTruthy v.duration (jsGet data VideoUpdate.duration)
    resolution :=
      applyField strTruthy v.resolution (jsGet data VideoUpdate.resolution)
    size :=
      applyField intTruthy v.size (jsGet data VideoUpdate.size)
    output_format :=
      applyField strTruthy v.output_format (jsGet data VideoUpdate.output_format)
    error_message :=
      applyField strTruthy v.error_message (jsGet data VideoUpdate.error_message) }

/-- Update the (first, hence with unique ids the only) record whose `_id`
matches, returning Mongo's `findByIdAndUpdate(..., { new: true })` result
alongside the new collection. -/
def updateById : List Video → String → (Video → Video) →
    Option Video × List Video
  | [], _, _ => (none, [])
  | v :: rest, videoId, f =>
    if v.id == videoId then (some (f v), f v :: rest)
    else
      let (r, rest2) := updateById rest videoId f
      (r, v :: rest2)

/-- `VideosService.updateVideoStatus(videoId, status, data?)` over a store
modelled as a list of records. -/
def updateVideoStatus (videos : List Video) (videoId : String)
    (status : VideoStatus) (data : Option VideoUpdate) :
    Option Video × List Video :=
  updateById videos videoId (fun v => mergeUpdate v status data)

/-- The in-place upsert of `VideosService.addConvertedFormat`: the first
entry with a matching format gets its `file_path` overwritten, otherwise a
new entry is pushed at the end. -/
def upsertFormatEntry : List ConvertedFormat → String → String →
    List ConvertedFormat
  | [], format, filePath => [⟨format, filePath⟩]
  | cf :: rest, format, filePath =>
    if cf.format == format then ⟨cf.format, filePath⟩ :: rest
    else cf :: upsertFormatEntry rest format filePath

/-- `VideosService.addConvertedFormat(videoId, format, filePath)` —
throws `NotFoundException("Video not found")` when the record is absent,
otherwise upserts into `converted_formats` and saves. -/
def addConvertedFormat (videos : List Video) (videoId format filePath : String) :
    Except String (Video × List Video) :=
  match updateById videos videoId
      (fun v => { v with
        converted_formats := upsertFormatEntry v.converted_formats format filePath }) with
  | (none, _) => .error "Video not found"
  | (some v2, vids) => .ok (v2, vids)

/-- `VideosService.findOne(id, userEmail?)`: `NotFoundException` when no
record matches the id (and, when supplied, the owner). -/
def findOne (videos : List Video) (id : String) (userEmail : Option String) :
    Except String Video :=
  match videos.find? (fun v =>
      v.id == id && (match userEmail with
                     | none => true
                     | some u => v.user_email == u)) with
  | some v => .ok v
  | none => .error "Video not found"

/-- `VideosService.getConvertedFormatPath(videoId, format)`; the trailing
`convertedFormat?.file_path || null` turns an empty stored path into
`null`. -/
def getConvertedFormatPath (videos : List Video) (videoId format : String) :
    Option String :=
  match videos.find? (fun v => v.id == videoId) with
  | none => none
  | some video =>
    match video.converted_formats.find? (fun cf => cf.format == format) with
    | some cf => if cf.file_path == "" then none else some cf.file_path
    | none => none

/-- A `video-processing` queue job payload `{ videoId, rawFilePath }`. -/
structure JobPayload where
  videoId : String
  rawFilePath : String
deriving DecidableEq, Repr

/-- The fresh record saved by `createVideo`: status UPLOADED, all optional
metadata at its schema default. -/
def newVideo (newId userEmail filename rawFilePath : String) : Video :=
  { id := newId, user_email := userEmail, filename := filename,
    status := .uploaded, raw_file_path := rawFilePath }

/-- `VideosService.createVideo(userEmail, filename, rawFilePath)`:
rejects a duplicate (user, filename) pair with a
`BadRequestException` before any record is created, otherwise saves an
UPLOADED record and enqueues one processing job.  `newId` models the Mongo
id assigned on save. -/
def createVideo (videos : List Video) (queue : List JobPayload)
    (newId userEmail filename rawFilePath : String) :
    Except String (Video × List Video × List JobPayload) :=
  if (videos.find? (fun v =>
        v.user_email == userEmail && v.filename == filename)).isSome then
    .error ("A video with filename \"" ++ filename ++ "\" already exists")
  else
    let video := newVideo newId userEmail filename rawFilePath
    .ok (video, videos ++ [video],
         queue ++ [{ videoId := newId, rawFilePath := rawFilePath }])

/-- `String.prototype.toLowerCase()` (ASCII, which covers every string
that occurs here), written character-wise so proofs can evaluate it. -/
def jsToLower (s : String) : String := String.mk (s.data.map Char.toLower)

/-- `String.prototype.toUpperCase()` (ASCII), character-wise. -/
def jsToUpper (s : String) : String := String.mk (s.data.map Char.toUpper)

/-- `SUPPORTED_FORMATS` of `VideosService`, as (value, label) pairs. -/
def supportedFormats : List (String × String) :=
  [("mp4", "MP4"), ("webm", "WebM"), ("avi", "AVI"),
   ("mov", "MOV"), ("mkv", "MKV"), ("flv", "FLV")]

/-- `VideosService.getSupportedFormatValues()`. -/
def supportedFormatValues : List String := supportedFormats.map Prod.fst

/-- `VideosService.validateFormat(format)`:
`SUPPORTED_FORMATS.some(f => f.value === format.toLowerCase())`. -/
def validateFormat (format : String) : Bool :=
  supportedFormatValues.contains (jsToLower format)

/-- The codec `switch (outputFormat.toLowerCase())` of
`convertVideoToFormat`; the `default` branch keeps the initial
`libx264` / `aac` pair. -/
def codecsFor (outputFormat : String) : String × String :=
  if jsToLower outputFormat = "mp4" then ("libx264", "aac")
  else if jsToLower outputFormat = "webm" then ("libvpx-vp9", "libopus")
  else if jsToLower outputFormat = "avi" then ("libx264", "mp3")
  else if jsToLower outputFormat = "mov" then ("libx264", "aac")
  else if jsToLower outputFormat = "mkv" then ("libx264", "aac")
  else if jsToLower outputFormat = "flv" then ("libx264", "mp3")
  else ("libx264", "aac")

/-- The watermark text burned onto every frame:
`Convert Video - Entvas - <FORMAT-UPPERCASE>`. -/
def watermarkText (outputFormat : String) : String :=
  "Convert Video - Entvas - " ++ jsToUpper outputFormat

/-- `watermarkText.replace(/'/g, "\\'")` — escape single quotes for the
FFmpeg drawtext filter. -/
def escapeQuotes (s : String) : String :=
  String.mk (s.data.foldr
    (fun c acc => if c = '\x27' then '\\' :: '\x27' :: acc else c :: acc) [])

/-- Output file name `processed-<Date.now()>.<format>`; `now` models the
millisecond clock value. -/
def outputFileNameFor (now : Nat) (outputFormat : String) : String :=
  "processed-" ++ toString now ++ "." ++ outputFormat

/-- `path.join('./uploads/processed', outputFileName)` (node normalizes
away the leading `./`). -/
def outputFilePathFor (now : Nat) (outputFormat : String) : String :=
  "uploads/processed/" ++ outputFileNameFor now outputFormat

/-- The interior of the composed FFmpeg command between the (normalized)
input path and the (normalized) output path: video filter with centered
drawtext watermark, codec pair, preset `fast`, `-crf 23`, `-threads 0`. -/
def ffmpegMiddle (outputFormat : String) : String :=
  "\" -vf \"drawtext=text=\x27" ++ escapeQuotes (watermarkText outputFormat) ++
  "\x27:fontcolor=green:fontsize=32:font=\x27cursive\x27:x=(w-text_w)/2:y=(h-text_h)/2\" -c:v " ++
  (codecsFor outputFormat).1 ++ " -c:a " ++ (codecsFor outputFormat).2 ++
  " -preset fast -crf 23 -threads 0 \""

/-- The full FFmpeg command template of `convertVideoToFormat`
(line 201 of the processor). -/
def ffmpegCommand (normalizedInputPath outputFormat normalizedOutputPath : String) :
    String :=
  "ffmpeg -i \"" ++
    (normalizedInputPath ++
      (ffmpegMiddle outputFormat ++ (normalizedOutputPath ++ "\"")))

/-- Events pushed through `VideosGateway`: `video-processed` (full record
snapshot) and `format-converted` (video id, format, file path), both
addressed to the owning user. -/
inductive NotificationEvent
  | videoProcessed (userEmail videoId : String) (video : Video)
  | formatConverted (userEmail videoId format filePath : String)
deriving DecidableEq, Repr

/-- Observable state threaded through the processor and controller:
the record store, the pushed-notification trace, and the trace of FFmpeg
commands handed to `execAsync` (each entry = one conversion attempt). -/
structure PipelineState where
  videos : List Video
  notifications : List NotificationEvent := []
  execs : List String := []
deriving DecidableEq, Repr

/-- `VideoProcessor.convertVideoToFormat(videoId, userEmail, rawFilePath,
outputFormat)`.  `exec` is the `execAsync` oracle (ffmpeg success or the
thrown error text); `resolve` models
`path.resolve(p).replace(/\\/g, '/')`; `now` models `Date.now()`.
A thrown error carries the state reached so far (the conversion attempt is
already on the `execs` trace). -/
def convertVideoToFormat (st : PipelineState)
    (exec : String → Except String Unit) (resolve : String → String)
    (now : Nat) (videoId userEmail rawFilePath outputFormat : String) :
    Except (String × PipelineState) (String × PipelineState) :=
  let outputFilePath := outputFilePathFor now outputFormat
  let cmd := ffmpegCommand (resolve rawFilePath) outputFormat (resolve outputFilePath)
  let st1 := { st with execs := st.execs ++ [cmd] }
  match exec cmd with
  | .error msg => .error (msg, st1)
  | .ok _ =>
    match addConvertedFormat st1.videos videoId (jsToLower outputFormat) outputFilePath with
    | .error msg => .error (msg, st1)
    | .ok (_, vids) =>
      let st2 := { st1 with
        videos := vids,
        notifications := st1.notifications ++
          [.formatConverted userEmail videoId (jsToLower outputFormat) outputFilePath] }
      .ok (outputFilePath, st2)

/-- What the probe step yields when it does not throw: the parsed ffprobe
JSON (`format?.duration` as the raw string, first stream width/height) and
`fs.statSync(rawFilePath).size`. -/
structure ProbeData where
  duration : Option String
  width : Option Int
  height : Option Int
  size : Int
deriving DecidableEq, Repr

/-- `errorMessage.substring(0, 500)`: truncation to the first `n`
characters, written on the character list so proofs can evaluate it. -/
def jsTruncate (s : String) (n : Nat) : String := String.mk (s.data.take n)

/-- The `catch` block of `handleVideoProcessing`: persist FAILED with the
error text truncated to 500 characters.  No notification is pushed here. -/
def applyCatch (st : PipelineState) (videoId msg : String) : PipelineState :=
  { st with
    videos := (updateVideoStatus st.videos videoId .failed
      (some { error_message := some (some (jsTruncate msg 500)) })).2 }

/-- The `Promise.allSettled(formats.map(...))` fan-out: every format is
attempted, each attempt's error is caught and swallowed.  The conversions
run concurrently in the source; they are modelled as a fold over the fixed
format list (each attempt's effect on the store is the keyed upsert, and the
claims proved below do not depend on the interleaving). -/
def runConversions (st : PipelineState)
    (exec : String → Except String Unit) (resolve : String → String)
    (now : Nat) (videoId userEmail rawFilePath : String)
    (fmts : List String) : PipelineState :=
  fmts.foldl (fun s f =>
    match convertVideoToFormat s exec resolve now videoId userEmail rawFilePath f with
    | .ok (_, s2) => s2
    | .error (_, s2) => s2) st

/-- `VideoProcessor.handleVideoProcessing(job)` — the whole per-video
state machine.  `probe` is the outcome of the ffprobe + JSON.parse +
statSync step (any throw there lands in the same catch); `parseFloat`
models JS `parseFloat` on the probed duration string. -/
def handleVideoProcessing (st : PipelineState)
    (exec : String → Except String Unit)
    (probe : Except String ProbeData) (parseFloat : String → Rat)
    (resolve : String → String) (now : Nat)
    (videoId rawFilePath : String) : PipelineState :=
  match findOne st.videos videoId none with
  | .error msg => applyCatch st videoId msg
  | .ok video =>
    let userEmail := video.user_email
    let st1 := { st with
      videos := (updateVideoStatus st.videos videoId .processing none).2 }
    match probe with
    | .error msg => applyCatch st1 videoId msg
    | .ok pd =>
      let duration : Option Rat :=
        match pd.duration with
        | some s => if s ≠ "" then some (parseFloat s) else none
        | none => none
      let resolution : Option String :=
        match pd.width, pd.height with
        | some w, some h =>
          if w ≠ 0 ∧ h ≠ 0 then some (toString w ++ "x" ++ toString h) else none
        | _, _ => none
      let upd : VideoUpdate :=
        { duration := some duration, resolution := some resolution,
          size := some (some pd.size) }
      let res1 := (updateVideoStatus st1.videos videoId .processing (some upd)).1
      let st2 := { st1 with
        videos := (updateVideoStatus st1.videos videoId .processing (some upd)).2 }
      let st3 :=
        match res1 with
        | some v => { st2 with notifications := st2.notifications ++
            [.videoProcessed userEmail videoId v] }
        | none => st2
      let st4 := runConversions st3 exec resolve now videoId userEmail rawFilePath
        supportedFormatValues
      let res2 := (updateVideoStatus st4.videos videoId .completed none).1
      let st5 := { st4 with
        videos := (updateVideoStatus st4.videos videoId .completed none).2 }
      match res2 with
      | some v => { st5 with notifications := st5.notifications ++
          [.videoProcessed userEmail videoId v] }
      | none => st5

/-- `VideosController.download(id, format?, user)` (lines 120-180): find
the owned record; when a format is requested, reuse an existing converted
file if its path is stored and present on disk, otherwise convert
on-demand through the processor's `convertVideoToFormat`; without a format
return the raw file.  A thrown conversion error propagates (carrying the
state reached). -/
def download (st : PipelineState) (fsExists : String → Bool)
    (exec : String → Except String Unit) (resolve : String → String)
    (now : Nat) (id : String) (format : Option String) (userEmail : String) :
    Except (String × PipelineState) (String × PipelineState) :=
  match findOne st.videos id (some userEmail) with
  | .error msg => .error (msg, st)
  | .ok video =>
    match format with
    | some f =>
      match getConvertedFormatPath st.videos id (jsToLower f) with
      | some p =>
        if fsExists p then .ok (p, st)
        else convertVideoToFormat st exec resolve now id userEmail
          video.raw_file_path (jsToLower f)
      | none => convertVideoToFormat st exec resolve now id userEmail
          video.raw_file_path (jsToLower f)
    | none => .ok (video.raw_file_path, st)

/-- `VideosService.delete(id, userEmail)` (lines 135-184): find the owned
record; attempt to unlink the raw file, the generic output file and every
converted-format file that exists on disk (each unlink is wrapped in its
own try/catch — a failure is only logged, `unlinkOk` gives the per-file
outcome and the failed paths are returned as the log trace); delete the
record regardless and return the success message together with the list of
attempted unlinks. -/
def deleteVideo (videos : List Video) (fsExists : String → Bool)
    (unlinkOk : String → Bool) (id userEmail : String) :
    Except String (String × List Video × List String × List String) :=
  match findOne videos id (some userEmail) with
  | .error msg => .error msg
  | .ok video =>
    let rawAttempts :=
      if fsExists video.raw_file_path then [video.raw_file_path] else []
    let outAttempts :=
      match video.output_file_path with
      | some p => if p ≠ "" ∧ fsExists p then [p] else []
      | none => []
    let convAttempts :=
      (video.converted_formats.filter
        (fun cf => cf.file_path != "" && fsExists cf.file_path)).map
        ConvertedFormat.file_path
    let attempts := rawAttempts ++ outAttempts ++ convAttempts
    let failedLogs := attempts.filter (fun p => !unlinkOk p)
    .ok ("Video deleted successfully",
         videos.filter (fun v => v.id != id), attempts, failedLogs)

/-- Concrete record used by several witnesses. -/
def vEx : Video :=
  { id := "v1", user_email := "alice@example.com", filename := "clip.mp4",
    status := .uploaded, raw_file_path := "uploads/raw/1.mp4" }

/-- Concrete partial update providing only duration and resolution. -/
def updEx : VideoUpdate :=
  { duration := some (some (25 : Rat)), resolution := some (some "1920x1080") }

/-- Concrete partial update carrying only falsy values: duration `0`,
resolution `null`, error message `""`. -/
def updFalsyEx : VideoUpdate :=
  { duration := some (some 0), resolution := some none,
    error_message := some (some "") }

/-- Concrete pipeline state with the single record `vEx`. -/
def stEx : PipelineState := { videos := [vEx] }

/-- Concrete probe outcome: duration string "12.5", 1920x1080, 1000 bytes. -/
def pdEx : ProbeData :=
  { duration := some "12.5", width := some 1920, height := some 1080,
    size := 1000 }

/-- An exec oracle on which every FFmpeg invocation fails. -/
def execFail : String → Except String Unit := fun _ => .error "boom"

/-- A path-resolution oracle that leaves paths unchanged. -/
def resolveId : String → String := fun s => s

/-- JS `parseFloat` oracle used by witnesses. -/
def parseFloatEx : String → Rat := fun _ => (25 : Rat) / 2

/-- A record with an output file and two converted formats, used by the
delete witness. -/
def vDel : Video :=
  { id := "v9", user_email := "bob@example.com", filename := "talk.mov",
    status := .completed, raw_file_path := "uploads/raw/9.mov",
    output_file_path := some "uploads/processed/out9.mp4",
    converted_formats :=
      [⟨"mp4", "uploads/processed/processed-9.mp4"⟩,
       ⟨"webm", "uploads/processed/processed-9.webm"⟩] }

/-! ## Helper lemmas (shared) -/

theorem applyField_absent (t : α → Bool) (old : Option α) :
    applyField t old none = old := rfl

theorem applyField_null (t : α → Bool) (old : Option α) :
    applyField t old (some none) = old := rfl

theorem applyField_truthy (t : α → Bool) (old : Option α) (x : α)
    (h : t x = true) : applyField t old (some (some x)) = some x := by
  simp [applyField, h]

theorem applyField_falsy (t : α → Bool) (old : Option α) (x : α)
    (h : t x = false) : applyField t old (some (some x)) = old := by
  simp [applyField, h]

theorem applyField_eq_none (t : α → Bool) (old : Option α)
    (u : Option (Option α)) (h : applyField t old u = none) : old = none := by
  match u with
  | none => exact h
  | some none => exact h
  | some (some x) =>
    by_cases hx : t x
    · simp [applyField, hx] at h
    · simpa [applyField, hx] using h

theorem mergeUpdate_id (v : Video) (status : VideoStatus)
    (data : Option VideoUpdate) : (mergeUpdate v status data).id = v.id := rfl

theorem updateById_found (videos : List Video) (videoId : String)
    (f : Video → Video) (v : Video) (hid : ∀ w, (f w).id = w.id)
    (h : videos.find? (fun w => w.id == videoId) = some v) :
    (updateById videos videoId f).1 = some (f v) ∧
    ((updateById videos videoId f).2).find? (fun w => w.id == videoId) =
      some (f v) := by
  induction videos with
  | nil => simp at h
  | cons a rest ih =>
    by_cases hc : (a.id == videoId) = true
    · rw [List.find?_cons_of_pos (p := fun (w : Video) => w.id == videoId) rest hc] at h
      injection h with h
      subst h
      constructor
      · simp [updateById, hc]
      · have hfid : ((f a).id == videoId) = true := by rw [hid a]; exact hc
        simp only [updateById, hc, if_true]
        exact List.find?_cons_of_pos (p := fun (w : Video) => w.id == videoId) _ hfid
    · rw [List.find?_cons_of_neg (p := fun (w : Video) => w.id == videoId) rest hc] at h
      have ih2 := ih h
      constructor
      · simpa [updateById, hc] using ih2.1
      · simp only [updateById, hc, if_false, Bool.false_eq_true]
        rw [List.find?_cons_of_neg (p := fun (w : Video) => w.id == videoId) _ hc]
        exact ih2.2

theorem find?_and_of_find? (videos : List Video) (p q : Video → Bool)
    (v : Video) (h : videos.find? p = some v) (hq : q v = true) :
    videos.find? (fun w => p w && q w) = some v := by
  induction videos with
  | nil => simp at h
  | cons a rest ih =>
    by_cases hc : p a = true
    · rw [List.find?_cons_of_pos _ hc] at h
      injection h with h
      subst h
      exact List.find?_cons_of_pos _ (by simp [hc, hq])
    · rw [List.find?_cons_of_neg _ hc] at h
      rw [List.find?_cons_of_neg _ (by simp [hc])]
      exact ih h

/-! ## C4 -/

/-- C4: `updateVideoStatus` on an existing record sets the new status and
merges exactly the provided (truthy) metadata fields: omitted fields keep
their prior value, a previously set field is never unset, and the identity
fields and `converted_formats` are untouched. -/
theorem updateStatus_merges_only_provided_fields (videos : List Video)
    (videoId : String) (status : VideoStatus) (data : Option VideoUpdate)
    (v : Video) (hfind : videos.find? (fun w => w.id == videoId) = some v) :
    (updateVideoStatus videos videoId status data).1 =
      some (mergeUpdate v status data)
    ∧ (mergeUpdate v status data).status = status
    ∧ (jsGet data VideoUpdate.duration = none →
        (mergeUpdate v status data).duration = v.duration)
    ∧ (jsGet data VideoUpdate.resolution = none →
        (mergeUpdate v status data).resolution = v.resolution)
    ∧ (jsGet data VideoUpdate.size = none →
        (mergeUpdate v status data).size = v.size)
    ∧ (jsGet data VideoUpdate.error_message = none →
        (mergeUpdate v status data).error_message = v.error_message)
    ∧ (jsGet data VideoUpdate.output_file_path = none →
        (mergeUpdate v status data).output_file_path = v.output_file_path)
    ∧ (jsGet data VideoUpdate.output_format = none →
        (mergeUpdate v status data).output_format = v.output_format)
    ∧ (∀ q : Rat, jsGet data VideoUpdate.duration = some (some q) → q ≠ 0 →
        (mergeUpdate v status data).duration = some q)
    ∧ (∀ s : String, jsGet data VideoUpdate.resolution = some (some s) →
        s ≠ "" → (mergeUpdate v status data).resolution = some s)
    ∧ (∀ n : Int, jsGet data VideoUpdate.size = some (some n) → n ≠ 0 →
        (mergeUpdate v status data).size = some n)
    ∧ (∀ s : String, jsGet data VideoUpdate.error_message = some (some s) →
        s ≠ "" → (mergeUpdate v status data).error_message = some s)
    ∧ (∀ s : String, jsGet data VideoUpdate.output_file_path = some (some s) →
        s ≠ "" → (mergeUpdate v status data).output_file_path = some s)
    ∧ ((mergeUpdate v status data).duration = none → v.duration = none)
    ∧ ((mergeUpdate v status data).resolution = none → v.resolution = none)
    ∧ ((mergeUpdate v status data).size = none → v.size = none)
    ∧ ((mergeUpdate v status data).error_message = none →
        v.error_message = none)
    ∧ ((mergeUpdate v status data).output_file_path = none →
        v.output_file_path = none)
    ∧ (mergeUpdate v status data).id = v.id
    ∧ (mergeUpdate v status data).user_email = v.user_email
    ∧ (mergeUpdate v status data).filename = v.filename
    ∧ (mergeUpdate v status data).raw_file_path = v.raw_file_path
    ∧ (mergeUpdate v status data).converted_formats = v.converted_formats := by
  refine ⟨?_, rfl, ?_, ?_, ?_, ?_, ?_, ?_, ?_, ?_, ?_, ?_, ?_, ?_, ?_, ?_,
    ?_, ?_, rfl, rfl, rfl, rfl, rfl⟩
  · exact (updateById_found videos videoId
      (fun w => mergeUpdate w status data) v (fun w => rfl) hfind).1
  · intro h; simp [mergeUpdate, h, applyField_absent]
  · intro h; simp [mergeUpdate, h, applyField_absent]
  · intro h; simp [mergeUpdate, h, applyField_absent]
  · intro h; simp [mergeUpdate, h, applyField_absent]
  · intro h; simp [mergeUpdate, h, applyField_absent]
  · intro h; simp [mergeUpdate, h, applyField_absent]
  · intro q h hq
    show applyField ratTruthy v.duration (jsGet data VideoUpdate.duration) = some q
    rw [h]; exact applyField_truthy _ _ _ (by simp [ratTruthy, hq])
  · intro s h hs
    show applyField strTruthy v.resolution (jsGet data VideoUpdate.resolution) = some s
    rw [h]; exact applyField_truthy _ _ _ (by simp [strTruthy, hs])
  · intro n h hn
    show applyField intTruthy v.size (jsGet data VideoUpdate.size) = some n
    rw [h]; exact applyField_truthy _ _ _ (by simp [intTruthy, hn])
  · intro s h hs
    show applyField strTruthy v.error_message (jsGet data VideoUpdate.error_message) = some s
    rw [h]; exact applyField_truthy _ _ _ (by simp [strTruthy, hs])
  · intro s h hs
    show applyField strTruthy v.output_file_path (jsGet data VideoUpdate.output_file_path) = some s
    rw [h]; exact applyField_truthy _ _ _ (by simp [strTruthy, hs])
  · intro h; exact applyField_eq_none _ _ _ h
  · intro h; exact applyField_eq_none _ _ _ h
  · intro h; exact applyField_eq_none _ _ _ h
  · intro h; exact applyField_eq_none _ _ _ h
  · intro h; exact applyField_eq_none _ _ _ h

theorem updateStatus_merges_only_provided_fields_witness :
    (updateVideoStatus [vEx] "v1" .processing (some updEx)).1 =
      some (mergeUpdate vEx .processing (some updEx)) :=
  (updateStatus_merges_only_provided_fields [vEx] "v1" .processing
    (some updEx) vEx (by decide)).1

/-! ## C10 -/

/-- C10: a metadata field provided to `updateVideoStatus` with a falsy
value (`0`, the empty string, or `null`) is silently ignored — the stored
field keeps its previous value. -/
theorem updateStatus_falsy_values_ignored (v : Video) (status : VideoStatus)
    (data : Option VideoUpdate) :
    (jsGet data VideoUpdate.duration = some (some 0) ∨
       jsGet data VideoUpdate.duration = some none →
       (mergeUpdate v status data).duration = v.duration)
    ∧ (jsGet data VideoUpdate.resolution = some (some "") ∨
       jsGet data VideoUpdate.resolution = some none →
       (mergeUpdate v status data).resolution = v.resolution)
    ∧ (jsGet data VideoUpdate.size = some (some 0) ∨
       jsGet data VideoUpdate.size = some none →
       (mergeUpdate v status data).size = v.size)
    ∧ (jsGet data VideoUpdate.error_message = some (some "") ∨
       jsGet data VideoUpdate.error_message = some none →
       (mergeUpdate v status data).error_message = v.error_message)
    ∧ (jsGet data VideoUpdate.output_file_path = some (some "") ∨
       jsGet data VideoUpdate.output_file_path = some none →
       (mergeUpdate v status data).output_file_path = v.output_file_path)
    ∧ (jsGet data VideoUpdate.output_format = some (some "") ∨
       jsGet data VideoUpdate.output_format = some none →
       (mergeUpdate v status data).output_format = v.output_format) := by
  refine ⟨?_, ?_, ?_, ?_, ?_, ?_⟩ <;>
    rintro (h | h) <;>
    simp [mergeUpdate, h, applyField, ratTruthy, intTruthy, strTruthy]

theorem updateStatus_falsy_values_ignored_witness :
    (mergeUpdate vEx .processing (some updFalsyEx)).duration = vEx.duration :=
  (updateStatus_falsy_values_ignored vEx .processing (some updFalsyEx)).1
    (Or.inl (by decide))

/-! ## C3 -/

theorem upsert_map_format (cfs : List ConvertedFormat) (format filePath : String) :
    (upsertFormatEntry cfs format filePath).map ConvertedFormat.format =
      if format ∈ cfs.map ConvertedFormat.format
      then cfs.map ConvertedFormat.format
      else cfs.map ConvertedFormat.format ++ [format] := by
  induction cfs with
  | nil => simp [upsertFormatEntry]
  | cons cf rest ih =>
    by_cases hc : (cf.format == format) = true
    · have : cf.format = format := by simpa using hc
      simp [upsertFormatEntry, hc, this]
    · have hne : cf.format ≠ format := by simpa using hc
      by_cases hm : format ∈ rest.map ConvertedFormat.format
      · simp [upsertFormatEntry, hc, hm, hne.symm, ih]
      · simp [upsertFormatEntry, hc, hm, hne.symm, ih]

theorem upsert_nodup (cfs : List ConvertedFormat) (format filePath : String)
    (h : (cfs.map ConvertedFormat.format).Nodup) :
    ((upsertFormatEntry cfs format filePath).map ConvertedFormat.format).Nodup := by
  rw [upsert_map_format]
  by_cases hm : format ∈ cfs.map ConvertedFormat.format
  · simpa [hm] using h
  · simp [hm, List.nodup_append, h, List.disjoint_singleton, hm]

theorem upsert_replaces_in_place (cfs : List ConvertedFormat)
    (format filePath : String)
    (hnd : (cfs.map ConvertedFormat.format).Nodup)
    (hm : format ∈ cfs.map ConvertedFormat.format) :
    upsertFormatEntry cfs format filePath =
      cfs.map (fun cf => if cf.format = format
                         then { cf with file_path := filePath } else cf) := by
  induction cfs with
  | nil => simp at hm
  | cons cf rest ih =>
    by_cases hc : (cf.format == format) = true
    · have heq : cf.format = format := by simpa using hc
      have hnotin : format ∉ rest.map ConvertedFormat.format := by
        rw [← heq]; exact (List.nodup_cons.mp (by simpa using hnd)).1
      have hmapid : rest.map (fun cf => if cf.format = format
          then { cf with file_path := filePath } else cf) = rest := by
        have : ∀ cf2 ∈ rest, (if cf2.format = format
            then ({ cf2 with file_path := filePath } : ConvertedFormat)
            else cf2) = id cf2 := by
          intro cf2 hcf2
          have : cf2.format ≠ format := by
            intro hEq
            exact hnotin (by simpa [hEq] using List.mem_map_of_mem ConvertedFormat.format hcf2)
          simp [this]
        rw [List.map_congr_left this, List.map_id]
      simp [upsertFormatEntry, hc, heq, hmapid]
    · have hne : cf.format ≠ format := by simpa using hc
      have hm2 : format ∈ rest.map ConvertedFormat.format := by
        have hm3 := hm
        simp only [List.map_cons, List.mem_cons] at hm3
        rcases hm3 with h1 | h1
        · exact absurd h1.symm hne
        · exact h1
      have hnd2 : (rest.map ConvertedFormat.format).Nodup :=
        (List.nodup_cons.mp (by simpa using hnd)).2
      simp [upsertFormatEntry, hc, hne, ih hnd2 hm2]

theorem upsert_appends_new (cfs : List ConvertedFormat) (format filePath : String)
    (hm : format ∉ cfs.map ConvertedFormat.format) :
    upsertFormatEntry cfs format filePath = cfs ++ [⟨format, filePath⟩] := by
  induction cfs with
  | nil => simp [upsertFormatEntry]
  | cons cf rest ih =>
    have hne : cf.format ≠ format := by
      intro hEq; exact hm (by simp [hEq])
    have hm2 : format ∉ rest.map ConvertedFormat.format := by
      intro h2; exact hm (by simp [h2])
    simp [upsertFormatEntry, hne, ih hm2]

/-- C3: `converted_formats` never holds two entries with the same format:
any sequence of `addConvertedFormat` upserts starting from the empty list
keeps the format identifiers `Nodup`; an upsert of an already-present
format rewrites only that entry's `file_path` (the format list is
unchanged), and an upsert of a new format appends exactly one entry. -/
theorem converted_formats_unique (cfs : List ConvertedFormat)
    (format filePath : String) :
    (∀ ops : List (String × String),
      ((ops.foldl (fun l p => upsertFormatEntry l p.1 p.2)
        ([] : List ConvertedFormat)).map ConvertedFormat.format).Nodup)
    ∧ ((cfs.map ConvertedFormat.format).Nodup →
        ((upsertFormatEntry cfs format filePath).map ConvertedFormat.format).Nodup)
    ∧ (format ∈ cfs.map ConvertedFormat.format →
        (upsertFormatEntry cfs format filePath).map ConvertedFormat.format =
          cfs.map ConvertedFormat.format)
    ∧ ((cfs.map ConvertedFormat.format).Nodup →
        format ∈ cfs.map ConvertedFormat.format →
        upsertFormatEntry cfs format filePath =
          cfs.map (fun cf => if cf.format = format
                             then { cf with file_path := filePath } else cf))
    ∧ (format ∉ cfs.map ConvertedFormat.format →
        upsertFormatEntry cfs format filePath = cfs ++ [⟨format, filePath⟩]) := by
  refine ⟨?_, upsert_nodup cfs format filePath, ?_,
    fun hnd hm => upsert_replaces_in_place cfs format filePath hnd hm,
    upsert_appends_new cfs format filePath⟩
  · intro ops
    suffices hgen : ∀ (start : List ConvertedFormat),
        (start.map ConvertedFormat.format).Nodup →
        ((ops.foldl (fun l p => upsertFormatEntry l p.1 p.2) start).map
          ConvertedFormat.format).Nodup by
      exact hgen [] (by simp)
    induction ops with
    | nil => intro start h; simpa using h
    | cons p rest ih =>
      intro start h
      exact ih (upsertFormatEntry start p.1 p.2) (upsert_nodup start p.1 p.2 h)
  · intro hm
    rw [upsert_map_format]
    simp [hm]

theorem converted_formats_unique_witness :
    ((([("mp4", "a.mp4"), ("webm", "b.webm"), ("mp4", "c.mp4")] :
        List (String × String)).foldl
      (fun l p => upsertFormatEntry l p.1 p.2)
      ([] : List ConvertedFormat)).map ConvertedFormat.format).Nodup :=
  (converted_formats_unique [] "mp4" "a.mp4").1
    [("mp4", "a.mp4"), ("webm", "b.webm"), ("mp4", "c.mp4")]

/-! ## C7 -/

/-- C7: per-user duplicate filenames are rejected: an upload whose
(user, filename) pair already exists fails with the duplicate-filename
error and creates nothing; a second upload of the same pair after a
successful first one fails the same way; a different user can upload the
same filename and gets a fresh record with status UPLOADED. -/
theorem duplicate_filename_per_user (videos : List Video)
    (queue : List JobPayload) (newId u fn raw : String) :
    ((∃ w ∈ videos, w.user_email = u ∧ w.filename = fn) →
      createVideo videos queue newId u fn raw =
        .error ("A video with filename \"" ++ fn ++ "\" already exists"))
    ∧ (∀ v vids2 q2 newId2 raw2,
        createVideo videos queue newId u fn raw = .ok (v, vids2, q2) →
        createVideo vids2 q2 newId2 u fn raw2 =
          .error ("A video with filename \"" ++ fn ++ "\" already exists"))
    ∧ (∀ u2, u2 ≠ u →
        videos.find? (fun w => w.user_email == u2 && w.filename == fn) = none →
        ∀ v vids2 q2 newId2 raw2,
          createVideo videos queue newId u fn raw = .ok (v, vids2, q2) →
          ∃ v2 vids3 q3,
            createVideo vids2 q2 newId2 u2 fn raw2 = .ok (v2, vids3, q3)
            ∧ v2.status = .uploaded ∧ v2.user_email = u2 ∧ v2.filename = fn) := by
  refine ⟨?_, ?_, ?_⟩
  · rintro ⟨w, hw, hw1, hw2⟩
    have hsome : (videos.find? (fun w =>
        w.user_email == u && w.filename == fn)).isSome = true :=
      List.find?_isSome.mpr ⟨w, hw, by simp [hw1, hw2]⟩
    simp [createVideo, hsome]
  · intro v vids2 q2 newId2 raw2 hok
    by_cases hdup : (videos.find? (fun w =>
        w.user_email == u && w.filename == fn)).isSome = true
    · simp [createVideo, hdup] at hok
    · have hnone : videos.find? (fun w =>
          w.user_email == u && w.filename == fn) = none :=
        Option.not_isSome_iff_eq_none.mp hdup
      simp only [createVideo, hdup, if_false, Bool.false_eq_true,
        Except.ok.injEq, Prod.mk.injEq] at hok
      obtain ⟨-, hvids, -⟩ := hok
      subst hvids
      have hsome2 : ((videos ++ [newVideo newId u fn raw]).find?
          (fun w => w.user_email == u && w.filename == fn)).isSome = true := by
        rw [List.find?_append, hnone]
        simp [newVideo]
      simp [createVideo, hsome2, newVideo]
  · intro u2 hu2 hnone2 v vids2 q2 newId2 raw2 hok
    by_cases hdup : (videos.find? (fun w =>
        w.user_email == u && w.filename == fn)).isSome = true
    · simp [createVideo, hdup] at hok
    · simp only [createVideo, hdup, if_false, Bool.false_eq_true,
        Except.ok.injEq, Prod.mk.injEq] at hok
      obtain ⟨-, hvids, -⟩ := hok
      subst hvids
      have hbeq : (u == u2) = false := by
        simp [beq_eq_false_iff_ne]
        intro hEq; exact hu2 hEq.symm
      have hnone3 : ((videos ++ [newVideo newId u fn raw]).find?
          (fun w => w.user_email == u2 && w.filename == fn)) = none := by
        rw [List.find?_append, hnone2]
        simp [newVideo, hbeq]
      refine ⟨newVideo newId2 u2 fn raw2,
        (videos ++ [newVideo newId u fn raw]) ++ [newVideo newId2 u2 fn raw2],
        q2 ++ [{ videoId := newId2, rawFilePath := raw2 }],
        ?_, rfl, rfl, rfl⟩
      simp only [createVideo, hnone3, Option.isSome_none,
        Bool.false_eq_true, if_false]

theorem duplicate_filename_per_user_witness :
    createVideo [vEx] [] "v2" "alice@example.com" "clip.mp4" "uploads/raw/2.mp4" =
      .error "A video with filename \"clip.mp4\" already exists" :=
  (duplicate_filename_per_user [vEx] [] "v2" "alice@example.com" "clip.mp4"
    "uploads/raw/2.mp4").1 ⟨vEx, by decide, rfl, rfl⟩

/-! ## C8 -/

/-- C8: for every conversion, the composed FFmpeg command uses the fixed
codec mapping (`libx264`/`aac` i.e. H.264+AAC for mp4, mov, mkv;
`libvpx-vp9`/`libopus` i.e. VP9+Opus for webm; `libx264`/`mp3` i.e.
H.264+MP3 for avi, flv), preset `fast`, constant quality `-crf 23`,
`-threads 0` (all available threads), and a centered drawtext watermark
reading `Convert Video - Entvas - <FORMAT>` with the format upper-cased
and literal quote characters escaped. -/
theorem ffmpeg_command_shape (inP outP : String) :
    (ffmpegCommand inP "mp4" outP =
      "ffmpeg -i \"" ++ (inP ++
        ("\" -vf \"drawtext=text=\x27Convert Video - Entvas - MP4\x27:fontcolor=green:fontsize=32:font=\x27cursive\x27:x=(w-text_w)/2:y=(h-text_h)/2\" -c:v libx264 -c:a aac -preset fast -crf 23 -threads 0 \"" ++
          (outP ++ "\""))))
    ∧ (ffmpegCommand inP "webm" outP =
      "ffmpeg -i \"" ++ (inP ++
        ("\" -vf \"drawtext=text=\x27Convert Video - Entvas - WEBM\x27:fontcolor=green:fontsize=32:font=\x27cursive\x27:x=(w-text_w)/2:y=(h-text_h)/2\" -c:v libvpx-vp9 -c:a libopus -preset fast -crf 23 -threads 0 \"" ++
          (outP ++ "\""))))
    ∧ (ffmpegCommand inP "avi" outP =
      "ffmpeg -i \"" ++ (inP ++
        ("\" -vf \"drawtext=text=\x27Convert Video - Entvas - AVI\x27:fontcolor=green:fontsize=32:font=\x27cursive\x27:x=(w-text_w)/2:y=(h-text_h)/2\" -c:v libx264 -c:a mp3 -preset fast -crf 23 -threads 0 \"" ++
          (outP ++ "\""))))
    ∧ (ffmpegCommand inP "mov" outP =
      "ffmpeg -i \"" ++ (inP ++
        ("\" -vf \"drawtext=text=\x27Convert Video - Entvas - MOV\x27:fontcolor=green:fontsize=32:font=\x27cursive\x27:x=(w-text_w)/2:y=(h-text_h)/2\" -c:v libx264 -c:a aac -preset fast -crf 23 -threads 0 \"" ++
          (outP ++ "\""))))
    ∧ (ffmpegCommand inP "mkv" outP =
      "ffmpeg -i \"" ++ (inP ++
        ("\" -vf \"drawtext=text=\x27Convert Video - Entvas - MKV\x27:fontcolor=green:fontsize=32:font=\x27cursive\x27:x=(w-text_w)/2:y=(h-text_h)/2\" -c:v libx264 -c:a aac -preset fast -crf 23 -threads 0 \"" ++
          (outP ++ "\""))))
    ∧ (ffmpegCommand inP "flv" outP =
      "ffmpeg -i \"" ++ (inP ++
        ("\" -vf \"drawtext=text=\x27Convert Video - Entvas - FLV\x27:fontcolor=green:fontsize=32:font=\x27cursive\x27:x=(w-text_w)/2:y=(h-text_h)/2\" -c:v libx264 -c:a mp3 -preset fast -crf 23 -threads 0 \"" ++
          (outP ++ "\""))))
    ∧ watermarkText "mp4" = "Convert Video - Entvas - MP4"
    ∧ escapeQuotes "Convert Video - \x27Entvas\x27 - MP4" =
        "Convert Video - \\\x27Entvas\\\x27 - MP4" := by
  refine ⟨rfl, rfl, rfl, rfl, rfl, rfl, by decide, by decide⟩

/-! ## Pipeline lemmas -/

theorem mergeUpdate_data_none (v : Video) (status : VideoStatus) :
    mergeUpdate v status none = { v with status := status } := rfl

theorem updateVideoStatus_found (videos : List Video) (videoId : String)
    (status : VideoStatus) (data : Option VideoUpdate) (v : Video)
    (hfind : videos.find? (fun w => w.id == videoId) = some v) :
    (updateVideoStatus videos videoId status data).1 =
      some (mergeUpdate v status data)
    ∧ ((updateVideoStatus videos videoId status data).2).find?
        (fun w => w.id == videoId) = some (mergeUpdate v status data) :=
  updateById_found videos videoId (fun w => mergeUpdate w status data) v
    (fun _ => rfl) hfind

theorem findOne_noUser (videos : List Video) (id : String) (v : Video)
    (hfind : videos.find? (fun w => w.id == id) = some v) :
    findOne videos id none = .ok v := by
  simp only [findOne]
  have hp : (fun (w : Video) => w.id == id &&
      (match (none : Option String) with
       | none => true
       | some u => w.user_email == u)) = fun w => w.id == id := by
    funext w; simp
  rw [hp, hfind]

theorem convertVideoToFormat_fails (st : PipelineState)
    (exec : String → Except String Unit) (resolve : String → String)
    (now : Nat) (videoId userEmail rawFilePath outputFormat m : String)
    (hm : exec (ffmpegCommand (resolve rawFilePath) outputFormat
      (resolve (outputFilePathFor now outputFormat))) = .error m) :
    convertVideoToFormat st exec resolve now videoId userEmail rawFilePath
      outputFormat =
      .error (m, { st with execs := st.execs ++
        [ffmpegCommand (resolve rawFilePath) outputFormat
          (resolve (outputFilePathFor now outputFormat))] }) := by
  simp [convertVideoToFormat, hm]

theorem runConversions_all_fail (exec : String → Except String Unit)
    (resolve : String → String) (now : Nat)
    (videoId userEmail rawFilePath : String)
    (hfail : ∀ c, ∃ m, exec c = Except.error m) :
    ∀ (fmts : List String) (st : PipelineState),
      runConversions st exec resolve now videoId userEmail rawFilePath fmts =
        { st with execs := st.execs ++ fmts.map (fun f =>
            ffmpegCommand (resolve rawFilePath) f
              (resolve (outputFilePathFor now f))) } := by
  intro fmts
  induction fmts with
  | nil => intro st; simp [runConversions]
  | cons f rest ih =>
    intro st
    obtain ⟨vids, notes, execs⟩ := st
    obtain ⟨m, hm⟩ := hfail (ffmpegCommand (resolve rawFilePath) f
      (resolve (outputFilePathFor now f)))
    have hstep := convertVideoToFormat_fails ⟨vids, notes, execs⟩ exec resolve
      now videoId userEmail rawFilePath f m hm
    have hrec := ih ⟨vids, notes, execs ++
      [ffmpegCommand (resolve rawFilePath) f
        (resolve (outputFilePathFor now f))]⟩
    simp only [runConversions, List.foldl_cons] at hrec ⊢
    rw [hstep]
    simpa [List.append_assoc] using hrec

/-! ## C1 -/

/-- C1: when every one of the per-format conversions fails, the pipeline
still attempts all six formats (one FFmpeg invocation per supported
format is on the exec trace) and afterwards transitions the record to
COMPLETED — not FAILED — leaving `converted_formats` empty and
`error_message` unset. -/
theorem all_conversions_fail_still_completed (st : PipelineState)
    (exec : String → Except String Unit) (pd : ProbeData)
    (parseFloat : String → Rat) (resolve : String → String) (now : Nat)
    (videoId rawFilePath : String) (v : Video)
    (hfind : st.videos.find? (fun w => w.id == videoId) = some v)
    (hcf : v.converted_formats = []) (herr : v.error_message = none)
    (hfail : ∀ c, ∃ m, exec c = Except.error m) :
    ∃ vF,
      (handleVideoProcessing st exec (.ok pd) parseFloat resolve now videoId
        rawFilePath).videos.find? (fun w => w.id == videoId) = some vF
      ∧ vF.status = .completed
      ∧ vF.converted_formats = []
      ∧ vF.error_message = none
      ∧ (handleVideoProcessing st exec (.ok pd) parseFloat resolve now videoId
          rawFilePath).execs =
        st.execs ++ supportedFormatValues.map (fun f =>
          ffmpegCommand (resolve rawFilePath) f
            (resolve (outputFilePathFor now f))) := by
  have hfindOne := findOne_noUser st.videos videoId v hfind
  have h1 := updateVideoStatus_found st.videos videoId .processing none v hfind
  set v1 := mergeUpdate v .processing none with hv1
  set upd : VideoUpdate :=
    { duration := some (match pd.duration with
        | some s => if s ≠ "" then some (parseFloat s) else none
        | none => none),
      resolution := some (match pd.width, pd.height with
        | some w, some h =>
          if w ≠ 0 ∧ h ≠ 0 then some (toString w ++ "x" ++ toString h)
          else none
        | _, _ => none),
      size := some (some pd.size) } with hupd
  have h2 := updateVideoStatus_found
    (updateVideoStatus st.videos videoId .processing none).2 videoId
    .processing (some upd) v1 h1.2
  set v2 := mergeUpdate v1 .processing (some upd) with hv2
  have hrun := runConversions_all_fail exec resolve now videoId v.user_email
    rawFilePath hfail supportedFormatValues
  have h3 := updateVideoStatus_found
    (updateVideoStatus
      (updateVideoStatus st.videos videoId .processing none).2 videoId
      .processing (some upd)).2 videoId .completed none v2 h2.2
  set v3 := mergeUpdate v2 .completed none with hv3
  refine ⟨v3, ?_, rfl, ?_, ?_, ?_⟩
  · simp only [handleVideoProcessing, hfindOne]
    rw [h2.1]
    rw [hrun]
    simp only []
    rw [h3.1]
    exact h3.2
  · show v2.converted_formats = []
    show v1.converted_formats = []
    show v.converted_formats = []
    exact hcf
  · show applyField strTruthy v2.error_message none = none
    show v2.error_message = none
    show applyField strTruthy v1.error_message upd.error_message = none
    show v1.error_message = none
    exact herr
  · simp only [handleVideoProcessing, hfindOne]
    rw [h2.1]
    rw [hrun]
    simp only []
    rw [h3.1]

theorem all_conversions_fail_still_completed_witness :
    ∃ vF,
      (handleVideoProcessing stEx execFail (.ok pdEx) parseFloatEx resolveId 0
        "v1" "uploads/raw/1.mp4").videos.find? (fun w => w.id == "v1") = some vF
      ∧ vF.status = .completed
      ∧ vF.converted_formats = []
      ∧ vF.error_message = none
      ∧ (handleVideoProcessing stEx execFail (.ok pdEx) parseFloatEx resolveId 0
          "v1" "uploads/raw/1.mp4").execs =
        stEx.execs ++ supportedFormatValues.map (fun f =>
          ffmpegCommand (resolveId "uploads/raw/1.mp4") f
            (resolveId (outputFilePathFor 0 f))) :=
  all_conversions_fail_still_completed stEx execFail pdEx parseFloatEx
    resolveId 0 "v1" "uploads/raw/1.mp4" vEx (by decide) rfl rfl
    (fun c => ⟨"boom", rfl⟩)

/-! ## C2 -/

set_option maxRecDepth 40000 in
/-- C2 counterexample: on a probe failure the pipeline persists FAILED with
the truncated error text, but pushes NO notification at all — the trace of
gateway events stays empty, refuting the claim's
"publishes a push notification of the failure to the owning user". -/
theorem probe_failure_no_notification_counterexample :
    (handleVideoProcessing stEx execFail (.error "boom") parseFloatEx
      resolveId 0 "v1" "uploads/raw/1.mp4").notifications = []
    ∧ (handleVideoProcessing stEx execFail (.error "boom") parseFloatEx
        resolveId 0 "v1" "uploads/raw/1.mp4").videos.find?
        (fun w => w.id == "v1") =
      some { vEx with status := .failed, error_message := some "boom" } := by
  have hfind : stEx.videos.find? (fun w => w.id == "v1") = some vEx := by decide
  have hfindOne := findOne_noUser stEx.videos "v1" vEx hfind
  have h1 := updateVideoStatus_found stEx.videos "v1" .processing none vEx hfind
  have h2 := updateVideoStatus_found
    (updateVideoStatus stEx.videos "v1" .processing none).2 "v1" .failed
    (some { error_message := some (some (jsTruncate "boom" 500)) })
    (mergeUpdate vEx .processing none) h1.2
  constructor
  · rfl
  · simp only [handleVideoProcessing, hfindOne, applyCatch]
    rw [h2.2]
    decide

theorem take_pos_ne_empty (msg : String) (h : msg ≠ "") :
    jsTruncate msg 500 ≠ "" := by
  intro hEq
  apply h
  have hdata := congrArg String.data hEq
  rcases List.take_eq_nil_iff.mp hdata with h0 | h0
  · cases h0
  · cases msg
    simp_all

set_option maxRecDepth 40000 in
/-- C2 (amended): when the metadata probe fails, the pipeline persists
status FAILED with the probe's error text truncated to 500 characters,
attempts no format conversion (the FFmpeg exec trace is unchanged, hence
no format-converted event can be emitted), and publishes no push
notification — the failure is visible only through the persisted record. -/
theorem probe_failure_failed_no_conversion (st : PipelineState)
    (exec : String → Except String Unit) (parseFloat : String → Rat)
    (resolve : String → String) (now : Nat)
    (videoId rawFilePath msg : String) (v : Video)
    (hfind : st.videos.find? (fun w => w.id == videoId) = some v)
    (hmsg : msg ≠ "") :
    ∃ vF,
      (handleVideoProcessing st exec (.error msg) parseFloat resolve now
        videoId rawFilePath).videos.find? (fun w => w.id == videoId) = some vF
      ∧ vF.status = .failed
      ∧ vF.error_message = some (jsTruncate msg 500)
      ∧ (jsTruncate msg 500).length ≤ 500
      ∧ (handleVideoProcessing st exec (.error msg) parseFloat resolve now
          videoId rawFilePath).execs = st.execs
      ∧ (handleVideoProcessing st exec (.error msg) parseFloat resolve now
          videoId rawFilePath).notifications = st.notifications := by
  have hfindOne := findOne_noUser st.videos videoId v hfind
  have h1 := updateVideoStatus_found st.videos videoId .processing none v hfind
  set v1 := mergeUpdate v .processing none with hv1
  have h2 := updateVideoStatus_found
    (updateVideoStatus st.videos videoId .processing none).2 videoId .failed
    (some { error_message := some (some (jsTruncate msg 500)) }) v1 h1.2
  refine ⟨mergeUpdate v1 .failed
    (some { error_message := some (some (jsTruncate msg 500)) }), ?_, rfl, ?_, ?_,
    ?_, ?_⟩
  · simp only [handleVideoProcessing, hfindOne, applyCatch]
    exact h2.2
  · show applyField strTruthy v1.error_message
      (some (some (jsTruncate msg 500))) = some (jsTruncate msg 500)
    exact applyField_truthy _ _ _
      (by simp [strTruthy, take_pos_ne_empty msg hmsg])
  · show (msg.data.take 500).length ≤ 500
    simp [List.length_take]
  · simp only [handleVideoProcessing, hfindOne, applyCatch]
  · simp only [handleVideoProcessing, hfindOne, applyCatch]

theorem probe_failure_failed_no_conversion_witness :
    ∃ vF,
      (handleVideoProcessing stEx execFail (.error "boom") parseFloatEx
        resolveId 0 "v1" "uploads/raw/1.mp4").videos.find?
        (fun w => w.id == "v1") = some vF
      ∧ vF.status = .failed
      ∧ vF.error_message = some (jsTruncate "boom" 500)
      ∧ (jsTruncate "boom" 500).length ≤ 500
      ∧ (handleVideoProcessing stEx execFail (.error "boom") parseFloatEx
          resolveId 0 "v1" "uploads/raw/1.mp4").execs = stEx.execs
      ∧ (handleVideoProcessing stEx execFail (.error "boom") parseFloatEx
          resolveId 0 "v1" "uploads/raw/1.mp4").notifications =
        stEx.notifications :=
  probe_failure_failed_no_conversion stEx execFail parseFloatEx resolveId 0
    "v1" "uploads/raw/1.mp4" "boom" vEx (by decide) (by decide)

/-! ## C9 -/

/-- C9: deleting an owned video attempts to unlink the raw file, the
generic output file and every converted-format file that exists on disk,
treats each per-file unlink outcome as non-fatal (the result does not
depend on `unlinkOk`; failures only land in the log trace), deletes the
record regardless, returns the success message, and a subsequent lookup of
that id fails with "Video not found". -/
theorem delete_removes_files_and_record (videos : List Video)
    (fsExists unlinkOk : String → Bool) (id u : String) (video : Video)
    (hfind : findOne videos id (some u) = .ok video) :
    ∃ attempts logs,
      deleteVideo videos fsExists unlinkOk id u =
        .ok ("Video deleted successfully",
             videos.filter (fun v => v.id != id), attempts, logs)
      ∧ findOne (videos.filter (fun v => v.id != id)) id none =
          .error "Video not found"
      ∧ (fsExists video.raw_file_path = true →
          video.raw_file_path ∈ attempts)
      ∧ (∀ p, video.output_file_path = some p → p ≠ "" →
          fsExists p = true → p ∈ attempts)
      ∧ (∀ cf ∈ video.converted_formats, cf.file_path ≠ "" →
          fsExists cf.file_path = true → cf.file_path ∈ attempts)
      ∧ logs = attempts.filter (fun p => !unlinkOk p) := by
  refine ⟨(if fsExists video.raw_file_path then [video.raw_file_path] else [])
      ++ (match video.output_file_path with
          | some p => if p ≠ "" ∧ fsExists p then [p] else []
          | none => [])
      ++ ((video.converted_formats.filter
            (fun cf => cf.file_path != "" && fsExists cf.file_path)).map
            ConvertedFormat.file_path),
    _, ?_, ?_, ?_, ?_, ?_, rfl⟩
  · simp only [deleteVideo, hfind]
  · simp only [findOne]
    have : ((videos.filter (fun v => v.id != id)).find? (fun v =>
        v.id == id && (match (none : Option String) with
                       | none => true
                       | some u2 => v.user_email == u2))) = none := by
      rw [List.find?_eq_none]
      intro x hx
      have hxid := (List.mem_filter.mp hx).2
      simp only [bne_iff_ne, ne_eq, decide_not] at hxid
      simp [hxid]
    rw [this]
  · intro hraw
    simp [hraw]
  · intro p hp hpne hpfs
    have : ¬(p = "") := hpne
    simp [hp, hpne, hpfs, List.mem_append]
  · intro cf hcf hne hfs
    refine List.mem_append.mpr (Or.inr (List.mem_map.mpr ⟨cf, ?_, rfl⟩))
    refine List.mem_filter.mpr ⟨hcf, ?_⟩
    simp [hne, hfs]

theorem delete_removes_files_and_record_witness :
    ∃ attempts logs,
      deleteVideo [vDel] (fun _ => true) (fun _ => false) "v9"
          "bob@example.com" =
        .ok ("Video deleted successfully",
             [vDel].filter (fun v => v.id != "v9"), attempts, logs)
      ∧ findOne ([vDel].filter (fun v => v.id != "v9")) "v9" none =
          .error "Video not found"
      ∧ ((fun _ => true : String → Bool) vDel.raw_file_path = true →
          vDel.raw_file_path ∈ attempts)
      ∧ (∀ p, vDel.output_file_path = some p → p ≠ "" →
          (fun _ => true : String → Bool) p = true → p ∈ attempts)
      ∧ (∀ cf ∈ vDel.converted_formats, cf.file_path ≠ "" →
          (fun _ => true : String → Bool) cf.file_path = true →
          cf.file_path ∈ attempts)
      ∧ logs = attempts.filter (fun p => !(fun _ => false : String → Bool) p) :=
  delete_removes_files_and_record [vDel] (fun _ => true) (fun _ => false)
    "v9" "bob@example.com" vDel (by rfl)

/-! ## On-demand conversion lemmas -/

theorem updateById_eq_pair (videos : List Video) (videoId : String)
    (f : Video → Video) (v : Video) (hid : ∀ w, (f w).id = w.id)
    (h : videos.find? (fun w => w.id == videoId) = some v) :
    updateById videos videoId f =
      (some (f v), (updateById videos videoId f).2) := by
  have h1 := (updateById_found videos videoId f v hid h).1
  exact Prod.ext h1 rfl

theorem findOne_withUser (videos : List Video) (id u : String) (v : Video)
    (hfind : videos.find? (fun w => w.id == id) = some v)
    (huser : v.user_email = u) : findOne videos id (some u) = .ok v := by
  simp only [findOne]
  have hconj := find?_and_of_find? videos (fun w => w.id == id)
    (fun w => w.user_email == u) v hfind (by simp [huser])
  rw [show (fun (w : Video) => w.id == id &&
      (match (some u : Option String) with
       | none => true
       | some u2 => w.user_email == u2)) =
      (fun (w : Video) => w.id == id && (w.user_email == u)) from rfl]
  rw [hconj]

theorem upsert_find_self (cfs : List ConvertedFormat) (fmt p : String) :
    (upsertFormatEntry cfs fmt p).find? (fun cf => cf.format == fmt) =
      some ⟨fmt, p⟩ := by
  induction cfs with
  | nil => simp [upsertFormatEntry]
  | cons cf rest ih =>
    by_cases hc : (cf.format == fmt) = true
    · have heq : cf.format = fmt := by simpa using hc
      simp [upsertFormatEntry, hc, heq]
    · simp [upsertFormatEntry, hc, ih]

theorem outputFilePathFor_ne_empty (now : Nat) (fmt : String) :
    (outputFilePathFor now fmt == "") = false := by
  rw [beq_eq_false_iff_ne]
  intro h
  have hd := congrArg (fun s => s.data.length) h
  simp only [outputFilePathFor] at hd
  rw [show ("uploads/processed/" ++ outputFileNameFor now fmt).data =
      "uploads/processed/".data ++ (outputFileNameFor now fmt).data from rfl,
    List.length_append] at hd
  rw [show ("uploads/processed/".data).length = 18 from rfl] at hd
  simp at hd

theorem convertVideoToFormat_succeeds (st : PipelineState)
    (exec : String → Except String Unit) (resolve : String → String)
    (now : Nat) (videoId userEmail rawFilePath outputFormat : String)
    (v : Video)
    (hfind : st.videos.find? (fun w => w.id == videoId) = some v)
    (hexec : exec (ffmpegCommand (resolve rawFilePath) outputFormat
      (resolve (outputFilePathFor now outputFormat))) = .ok ()) :
    convertVideoToFormat st exec resolve now videoId userEmail rawFilePath
      outputFormat =
      .ok (outputFilePathFor now outputFormat,
        { videos := (updateById st.videos videoId (fun w => { w with
            converted_formats := upsertFormatEntry w.converted_formats
              (jsToLower outputFormat)
              (outputFilePathFor now outputFormat) })).2,
          notifications := st.notifications ++
            [.formatConverted userEmail videoId (jsToLower outputFormat)
              (outputFilePathFor now outputFormat)],
          execs := st.execs ++
            [ffmpegCommand (resolve rawFilePath) outputFormat
              (resolve (outputFilePathFor now outputFormat))] }) := by
  have hpair := updateById_eq_pair st.videos videoId (fun w => { w with
      converted_formats := upsertFormatEntry w.converted_formats
        (jsToLower outputFormat) (outputFilePathFor now outputFormat) }) v
    (fun _ => rfl) hfind
  simp only [convertVideoToFormat, hexec, addConvertedFormat]
  rw [hpair]

theorem getPath_after_upsert (videos : List Video) (videoId fmt p : String)
    (v : Video) (hfind : videos.find? (fun w => w.id == videoId) = some v)
    (hne : (p == "") = false) :
    getConvertedFormatPath
      ((updateById videos videoId (fun w => { w with
        converted_formats := upsertFormatEntry w.converted_formats
          fmt p })).2) videoId fmt =
      some p := by
  have h := updateById_found videos videoId (fun w => { w with
      converted_formats := upsertFormatEntry w.converted_formats fmt p }) v
    (fun _ => rfl) hfind
  simp only [getConvertedFormatPath, h.2, upsert_find_self, hne]
  simp

/-! ## C5 -/

/-- C5: a download naming a format: when a stored entry exists and its
file is on disk, the stored location is returned with no conversion and no
state change; otherwise (no stored entry, or a stored entry whose file is
missing from disk) the same `convertVideoToFormat` primitive the pipeline
uses runs synchronously — it records exactly one FFmpeg invocation,
upserts the format into `converted_formats` (a subsequent lookup returns
the new location), publishes a format-converted notification to the owner,
and the new location is returned.  `hlow` pins the requested format to its
lowercase form, as the on-demand scenario does with `mkv`. -/
theorem download_reuses_or_converts (st : PipelineState)
    (fsExists : String → Bool) (exec : String → Except String Unit)
    (resolve : String → String) (now : Nat) (id f userEmail : String)
    (v : Video)
    (hfind : st.videos.find? (fun w => w.id == id) = some v)
    (huser : v.user_email = userEmail)
    (hlow : jsToLower f = f) :
    (∀ p, getConvertedFormatPath st.videos id f = some p →
      fsExists p = true →
      download st fsExists exec resolve now id (some f) userEmail =
        .ok (p, st))
    ∧ (exec (ffmpegCommand (resolve v.raw_file_path) f
          (resolve (outputFilePathFor now f))) = .ok () →
       ∃ st2,
         convertVideoToFormat st exec resolve now id userEmail
             v.raw_file_path f = .ok (outputFilePathFor now f, st2)
         ∧ (getConvertedFormatPath st.videos id f = none →
             download st fsExists exec resolve now id (some f) userEmail =
               .ok (outputFilePathFor now f, st2))
         ∧ (∀ p, getConvertedFormatPath st.videos id f = some p →
             fsExists p = false →
             download st fsExists exec resolve now id (some f) userEmail =
               .ok (outputFilePathFor now f, st2))
         ∧ getConvertedFormatPath st2.videos id f =
             some (outputFilePathFor now f)
         ∧ st2.notifications = st.notifications ++
             [.formatConverted userEmail id f (outputFilePathFor now f)]
         ∧ st2.execs = st.execs ++
             [ffmpegCommand (resolve v.raw_file_path) f
               (resolve (outputFilePathFor now f))]) := by
  have hfindOne := findOne_withUser st.videos id userEmail v hfind huser
  constructor
  · intro p hp hfs
    simp only [download, hfindOne, hlow, hp, hfs, if_true]
  · intro hexec
    have hconv := convertVideoToFormat_succeeds st exec resolve now id
      userEmail v.raw_file_path f v hfind hexec
    rw [hlow] at hconv
    refine ⟨_, hconv, ?_, ?_, ?_, rfl, rfl⟩
    · intro hnone
      simp only [download, hfindOne, hlow, hnone]
      exact hconv
    · intro p hp hfs
      simp only [download, hfindOne, hlow, hp, hfs, Bool.false_eq_true,
        if_false]
      exact hconv
    · exact getPath_after_upsert st.videos id f
        (outputFilePathFor now f) v hfind (outputFilePathFor_ne_empty now f)

theorem download_reuses_or_converts_witness :
    ∃ st2,
      download stEx (fun _ => true) (fun _ => Except.ok ()) resolveId 0 "v1"
          (some "mkv") "alice@example.com" =
        .ok (outputFilePathFor 0 "mkv", st2)
      ∧ getConvertedFormatPath st2.videos "v1" "mkv" =
          some (outputFilePathFor 0 "mkv") := by
  obtain ⟨st2, hconv, hdl, hstale, hget, hnote, hexecs⟩ :=
    (download_reuses_or_converts stEx (fun _ => true) (fun _ => Except.ok ())
      resolveId 0 "v1" "mkv" "alice@example.com" vEx (by decide) rfl
      (by decide)).2 rfl
  exact ⟨st2, hdl (by decide), hget⟩

/-! ## C6 -/

set_option maxRecDepth 4000 in
/-- C6 counterexample: a download request for the out-of-set format `xyz`
does NOT fail with an unsupported-format error — the controller never
calls `validateFormat` on this path.  The request succeeds, one transcoder
invocation is recorded (a conversion IS attempted), and `xyz` even ends up
in `converted_formats`. -/
theorem unsupported_format_not_rejected_counterexample :
    validateFormat "xyz" = false
    ∧ ∃ st2,
        download stEx (fun _ => true) (fun _ => Except.ok ()) resolveId 0
            "v1" (some "xyz") "alice@example.com" =
          .ok (outputFilePathFor 0 "xyz", st2)
        ∧ st2.execs.length = 1
        ∧ getConvertedFormatPath st2.videos "v1" "xyz" =
            some (outputFilePathFor 0 "xyz") := by
  refine ⟨by decide, ?_⟩
  have hfind : stEx.videos.find? (fun w => w.id == "v1") = some vEx := by
    decide
  have hfindOne := findOne_withUser stEx.videos "v1" "alice@example.com" vEx
    hfind rfl
  have hconv := convertVideoToFormat_succeeds stEx (fun _ => Except.ok ())
    resolveId 0 "v1" "alice@example.com" vEx.raw_file_path "xyz" vEx hfind rfl
  rw [show jsToLower "xyz" = "xyz" from by decide] at hconv
  refine ⟨{ videos := (updateById stEx.videos "v1" (fun w => { w with converted_formats := upsertFormatEntry w.converted_formats "xyz" (outputFilePathFor 0 "xyz") })).2, notifications := stEx.notifications ++ [.formatConverted "alice@example.com" "v1" "xyz" (outputFilePathFor 0 "xyz")], execs := stEx.execs ++ [ffmpegCommand (resolveId vEx.raw_file_path) "xyz" (resolveId (outputFilePathFor 0 "xyz"))] }, ?_, rfl, ?_⟩
  · simp only [download, hfindOne,
      show jsToLower "xyz" = "xyz" from by decide,
      show getConvertedFormatPath stEx.videos "v1" "xyz" = none from by decide]
    exact hconv
  · exact getPath_after_upsert stEx.videos "v1" "xyz"
      (outputFilePathFor 0 "xyz") vEx hfind (outputFilePathFor_ne_empty 0 "xyz")

/-- C6 (amended): a requested format outside the fixed six-format set is
not rejected: neither the download route nor `convertVideoToFormat` checks
`validateFormat` there, so the request proceeds to an on-demand conversion
whose codec switch falls through to its default H.264+AAC pair
(`libx264`/`aac`); a transcoder invocation is recorded and, when it
succeeds, the out-of-set format is stored in `converted_formats` and its
file location returned. -/
theorem unsupported_format_converted_with_default_codecs
    (st : PipelineState) (fsExists : String → Bool)
    (exec : String → Except String Unit) (resolve : String → String)
    (now : Nat) (id f userEmail : String) (v : Video)
    (hfind : st.videos.find? (fun w => w.id == id) = some v)
    (huser : v.user_email = userEmail)
    (hlow : jsToLower f = f)
    (hval : validateFormat f = false)
    (hnone : getConvertedFormatPath st.videos id f = none)
    (hexec : exec (ffmpegCommand (resolve v.raw_file_path) f
      (resolve (outputFilePathFor now f))) = .ok ()) :
    codecsFor f = ("libx264", "aac")
    ∧ ∃ st2,
        download st fsExists exec resolve now id (some f) userEmail =
          .ok (outputFilePathFor now f, st2)
        ∧ st2.execs = st.execs ++
            [ffmpegCommand (resolve v.raw_file_path) f
              (resolve (outputFilePathFor now f))]
        ∧ getConvertedFormatPath st2.videos id f =
            some (outputFilePathFor now f) := by
  constructor
  · rw [validateFormat, hlow] at hval
    simp only [supportedFormatValues, supportedFormats] at hval
    simp at hval
    obtain ⟨h1, h2, h3, h4, h5, h6⟩ := hval
    simp [codecsFor, hlow, h1, h2, h3, h4, h5, h6]
  · have hconv := convertVideoToFormat_succeeds st exec resolve now id
      userEmail v.raw_file_path f v hfind hexec
    rw [hlow] at hconv
    refine ⟨{ videos := (updateById st.videos id (fun w => { w with converted_formats := upsertFormatEntry w.converted_formats f (outputFilePathFor now f) })).2, notifications := st.notifications ++ [.formatConverted userEmail id f (outputFilePathFor now f)], execs := st.execs ++ [ffmpegCommand (resolve v.raw_file_path) f (resolve (outputFilePathFor now f))] }, ?_, rfl, ?_⟩
    · simp only [download, findOne_withUser st.videos id userEmail v hfind
        huser, hlow, hnone]
      exact hconv
    · exact getPath_after_upsert st.videos id f (outputFilePathFor now f) v
        hfind (outputFilePathFor_ne_empty now f)

set_option maxRecDepth 4000 in
theorem unsupported_format_converted_with_default_codecs_witness :
    codecsFor "xyz" = ("libx264", "aac")
    ∧ ∃ st2,
        download stEx (fun _ => true) (fun _ => Except.ok ()) resolveId 0
            "v1" (some "xyz") "alice@example.com" =
          .ok (outputFilePathFor 0 "xyz", st2)
        ∧ st2.execs = stEx.execs ++
            [ffmpegCommand (resolveId vEx.raw_file_path) "xyz"
              (resolveId (outputFilePathFor 0 "xyz"))]
        ∧ getConvertedFormatPath st2.videos "v1" "xyz" =
            some (outputFilePathFor 0 "xyz") :=
  unsupported_format_converted_with_default_codecs stEx (fun _ => true)
    (fun _ => Except.ok ()) resolveId 0 "v1" "xyz" "alice@example.com" vEx
    (by decide) rfl (by decide) (by decide) (by decide) rfl
